import Mathlib

/-!
Verification of `processador_nfe.py` (repository `luizelias8/processador-nfe`).

Shallow embedding of the NFe ingestion pipeline:
* `XVal` models the dictionaries produced by `xmltodict.parse` (maps, lists,
  strings, `None`).
* `extrair_dados_nfe` mirrors `ProcessadorNFe.extrair_dados_nfe`
  (src/processador_nfe.py lines 258-340); fallible Python attribute access
  is modelled with `Except`.
* `salvar_no_banco` mirrors the SQLite upsert (lines 377-431) over a pure
  relational state `DB`.
* `gerar_nome_unico` mirrors the collision-avoiding renamer (lines 351-375)
  over an explicit listing of existing paths.
* `processar_xml` mirrors the try/except orchestration (lines 433-477) over a
  `World` holding the filesystem, database and log; environmental failures
  (I/O errors on the database or on moves) are explicit `Env` flags.
* Filesystem paths are modelled as (directory, basename) pairs; this matches
  the program, which only ever builds destination paths as
  `pasta_destino / novo_nome`.
Monetary values are modelled as `Rat` (Python parses decimal strings with
`float`; the decimal strings appearing here are represented exactly).
-/

/-- A value of the nested dictionary tree returned by `xmltodict.parse`:
a Python `dict` (association list, keys unique in practice), `list`,
`str`, or `None`. -/
inductive XVal where
  | str : String → XVal
  | null : XVal
  | seq : List XVal → XVal
  | map : List (String × XVal) → XVal

/-- Python truthiness for the values of `XVal` (`if icms:` etc.). -/
def truthy : XVal → Bool
  | .str s => s ≠ ""
  | .null => false
  | .seq l => !l.isEmpty
  | .map m => !m.isEmpty

/-- First binding of a key in an association list (Python `dict` lookup;
`xmltodict` dictionaries have unique keys). -/
def pyLookup : List (String × XVal) → String → Option XVal
  | [], _ => none
  | (k, v) :: rest, key => if k = key then some v else pyLookup rest key

/-- Python `d.get(key, default)`.  Raises (`Except.error`) when the receiver
is not a `dict` (`AttributeError: ... has no attribute 'get'`). -/
def pyGetD (v : XVal) (key : String) (dflt : XVal) : Except String XVal :=
  match v with
  | .map m => .ok ((pyLookup m key).getD dflt)
  | _ => .error "AttributeError: no attribute get"

/-- Python `d.get(key, default)` where the caller's default is not an `XVal`
(such as the literal `0` in `float(prod.get('qCom', 0))`): returns the raw
binding when present. -/
def pyGetOpt (v : XVal) (key : String) : Except String (Option XVal) :=
  match v with
  | .map m => .ok (pyLookup m key)
  | _ => .error "AttributeError: no attribute get"

/-- Numeric value of a decimal digit list (most significant first). -/
def digitsVal (cs : List Char) : Nat :=
  cs.foldl (fun a c => a * 10 + (c.toNat - 48)) 0

def allDigits (cs : List Char) : Bool :=
  cs.all fun c => '0' ≤ c ∧ c ≤ '9'

/-- Python `float` applied to a string: an optional sign, then decimal
digits with at most one point (at least one digit overall).  The resulting
value is represented exactly as a rational. -/
def pyFloatStr (s : String) : Except String Rat :=
  let cs := s.toList
  let (neg, body) :=
    match cs with
    | '-' :: rest => (true, rest)
    | '+' :: rest => (false, rest)
    | _ => (false, cs)
  let intPart := body.takeWhile (· ≠ '.')
  let rest := body.dropWhile (· ≠ '.')
  let ok : Bool :=
    match rest with
    | [] => allDigits intPart && intPart ≠ []
    | '.' :: frac =>
        allDigits intPart && allDigits frac && (intPart ≠ [] || frac ≠ [])
    | _ => false
  if ok then
    let frac := match rest with | '.' :: f => f | _ => []
    let mag : Rat :=
      (digitsVal intPart : Rat) + (digitsVal frac : Rat) / ((10 : Rat) ^ frac.length)
    .ok (if neg then -mag else mag)
  else
    .error "ValueError: could not convert string to float"

/-- Python `float(d.get(key, 0))`: the literal default `0` becomes `0.0`;
a string binding is parsed; any other binding (`None`, `dict`, `list`)
raises `TypeError`. -/
def pyFloatD0 (v : Option XVal) : Except String Rat :=
  match v with
  | none => .ok 0
  | some (.str s) => pyFloatStr s
  | some _ => .error "TypeError: float() argument"

/-- Python `int(d.get(key, 0))`: the literal default `0` stays `0`;
a string binding must be an optionally signed digit string. -/
def pyIntD0 (v : Option XVal) : Except String Int :=
  match v with
  | none => .ok 0
  | some (.str s) =>
      let cs := s.toList
      let (neg, body) :=
        match cs with
        | '-' :: rest => (true, rest)
        | '+' :: rest => (false, rest)
        | _ => (false, cs)
      if allDigits body && body ≠ [] then
        .ok (if neg then -(digitsVal body : Int) else (digitsVal body : Int))
      else .error "ValueError: invalid literal for int"
  | some _ => .error "TypeError: int() argument"

/-- Python `s.replace('NFe', '')`: removes every (left-to-right,
non-overlapping) occurrence of the substring `"NFe"`. -/
def replaceNFeChars : List Char → List Char
  | 'N' :: 'F' :: 'e' :: rest => replaceNFeChars rest
  | c :: rest => c :: replaceNFeChars rest
  | [] => []

def pyReplaceNFe (s : String) : String := ⟨replaceNFeChars s.toList⟩

/-- Modelled from the spec: removal of the fixed textual *leading* marker
`"NFe"` only (the spec's reading of the access-key derivation), used to
compare against the source's `str.replace` behaviour. -/
def stripLeadingNFe (s : String) : String :=
  match s.toList with
  | 'N' :: 'F' :: 'e' :: rest => ⟨rest⟩
  | _ => s

/-- A calendar date as extracted by `datetime.strptime(_, '%Y-%m-%d')`. -/
structure DateV where
  year : Nat
  month : Nat
  day : Nat
deriving DecidableEq

def diasNoMes (y m : Nat) : Nat :=
  if m = 2 then
    if y % 4 = 0 && (y % 100 ≠ 0 || y % 400 = 0) then 29 else 28
  else if m = 4 || m = 6 || m = 9 || m = 11 then 30
  else 31

/-- `datetime.strptime(s, '%Y-%m-%d')`: four year digits, one or two month
and day digits, fully validated. -/
def parseDataStr (s : String) : Option DateV :=
  match s.split (· = '-') with
  | [ys, ms, ds] =>
      let yc := ys.toList; let mc := ms.toList; let dc := ds.toList
      if allDigits yc && yc.length = 4 &&
         allDigits mc && (mc.length = 1 || mc.length = 2) &&
         allDigits dc && (dc.length = 1 || dc.length = 2) then
        let y := digitsVal yc; let m := digitsVal mc; let d := digitsVal dc
        if 1 ≤ m && m ≤ 12 && 1 ≤ d && d ≤ diasNoMes y m then
          some ⟨y, m, d⟩
        else none
      else none
  | _ => none

/-- `ProcessadorNFe.converter_data` (lines 342-349): a nonempty string is
parsed as `%Y-%m-%d`; anything else (falsy values, wrong types, parse
failures — all swallowed by the bare `except`) yields `None`. -/
def converter_data : XVal → Option DateV
  | .str s => if s = "" then none else parseDataStr s
  | _ => none

/-- The `cabecalho` dictionary built by `extrair_dados_nfe` (lines 287-302).
Fields passed through raw from the tree keep type `XVal`; `float`-converted
fields are `Rat`; dates go through `converter_data`. -/
structure Cabecalho where
  chave_acesso : String
  numero_nf : XVal
  serie : XVal
  data_emissao : Option DateV
  data_saida_entrada : Option DateV
  tipo_operacao : XVal
  cnpj_emitente : XVal
  nome_emitente : XVal
  cnpj_destinatario : XVal
  nome_destinatario : XVal
  valor_total : Rat
  valor_icms : Rat
  valor_pis : Rat
  valor_cofins : Rat

/-- The per-item dictionary built by `extrair_dados_nfe` (lines 320-333). -/
structure Item where
  chave_acesso : String
  numero_item : Int
  codigo_produto : XVal
  descricao_produto : XVal
  cfop : XVal
  unidade_comercial : XVal
  quantidade_comercial : Rat
  valor_unitario_comercial : Rat
  valor_total_produto : Rat
  valor_icms : Rat
  valor_pis : Rat
  valor_cofins : Rat

/-- Line 280-281: `if not isinstance(det, list): det = [det]` — a lone
structure is wrapped into a one-element list, a list is kept as is. -/
def pyToList : XVal → List XVal
  | .seq l => l
  | v => [v]

/-- Line 284: `chave_acesso = inf_nfe.get('@Id', '').replace('NFe', '')`.
`str.replace` raises when the binding is not a string. -/
def extrairChave (infNfe : XVal) : Except String String := do
  match ← pyGetD infNfe "@Id" (.str "") with
  | .str s => pure (pyReplaceNFe s)
  | _ => .error "AttributeError: no attribute replace"

/-- Lines 311-318 and 330-332, identical for the three taxes: look the tax
sub-document up by name (default `{}`), take the value of its first key when
truthy (`next(iter(tax.values())) if tax else {}`), then
`float(tipo.get(valueKey, 0))`. -/
def extractTax (imposto : XVal) (taxKey valKey : String) : Except String Rat := do
  let tax ← pyGetD imposto taxKey (.map [])
  let tipo ←
    if truthy tax then
      match tax with
      | .map ((_, v) :: _) => pure v
      | .map [] => .error "StopIteration"
      | _ => .error "AttributeError: no attribute values"
    else
      pure (XVal.map [])
  pyFloatD0 (← pyGetOpt tipo valKey)

/-- Lines 306-334: extraction of one line item. -/
def extrairItem (chave : String) (item : XVal) : Except String Item := do
  let prod ← pyGetD item "prod" (.map [])
  let imposto ← pyGetD item "imposto" (.map [])
  let vIcms ← extractTax imposto "ICMS" "vICMS"
  let vPis ← extractTax imposto "PIS" "vPIS"
  let vCofins ← extractTax imposto "COFINS" "vCOFINS"
  let nItem ← pyIntD0 (← pyGetOpt item "@nItem")
  let codigo ← pyGetD prod "cProd" (.str "")
  let descricao ← pyGetD prod "xProd" (.str "")
  let cfop ← pyGetD prod "CFOP" (.str "")
  let unidade ← pyGetD prod "uCom" (.str "")
  let qCom ← pyFloatD0 (← pyGetOpt prod "qCom")
  let vUnCom ← pyFloatD0 (← pyGetOpt prod "vUnCom")
  let vProd ← pyFloatD0 (← pyGetOpt prod "vProd")
  pure {
    chave_acesso := chave
    numero_item := nItem
    codigo_produto := codigo
    descricao_produto := descricao
    cfop := cfop
    unidade_comercial := unidade
    quantidade_comercial := qCom
    valor_unitario_comercial := vUnCom
    valor_total_produto := vProd
    valor_icms := vIcms
    valor_pis := vPis
    valor_cofins := vCofins }

/-- The `for item in det` loop (lines 305-334): one `Item` per entry, any
exception aborts the whole extraction. -/
def extrairItens (chave : String) : List XVal → Except String (List Item)
  | [] => .ok []
  | it :: rest => do
      let d ← extrairItem chave it
      let ds ← extrairItens chave rest
      pure (d :: ds)

/-- `ProcessadorNFe.extrair_dados_nfe` (lines 258-340): navigate the tree,
build the header dictionary, normalize `det`, and extract the items. -/
def extrair_dados_nfe (xmlDict : XVal) : Except String (Cabecalho × List Item) := do
  let nfe ← pyGetD xmlDict "NFe" (.map [])
  let infNfe ← pyGetD nfe "infNFe" (.map [])
  let ide ← pyGetD infNfe "ide" (.map [])
  let emit ← pyGetD infNfe "emit" (.map [])
  let destE ← pyGetD infNfe "dest" (.map [])
  let total ← pyGetD infNfe "total" (.map [])
  let icmsTot ← pyGetD total "ICMSTot" (.map [])
  let det ← pyGetD infNfe "det" (.seq [])
  let detL := pyToList det
  let chave ← extrairChave infNfe
  let cab : Cabecalho := {
    chave_acesso := chave
    numero_nf := ← pyGetD ide "nNF" (.str "")
    serie := ← pyGetD ide "serie" (.str "")
    data_emissao := converter_data (← pyGetD ide "dEmi" (.str ""))
    data_saida_entrada := converter_data (← pyGetD ide "dSaiEnt" (.str ""))
    tipo_operacao := ← pyGetD ide "natOp" (.str "")
    cnpj_emitente := ← pyGetD emit "CNPJ" (.str "")
    nome_emitente := ← pyGetD emit "xNome" (.str "")
    cnpj_destinatario := ← pyGetD destE "CNPJ" (.str "")
    nome_destinatario := ← pyGetD destE "xNome" (.str "")
    valor_total := ← pyFloatD0 (← pyGetOpt icmsTot "vNF")
    valor_icms := ← pyFloatD0 (← pyGetOpt icmsTot "vICMS")
    valor_pis := ← pyFloatD0 (← pyGetOpt icmsTot "vPIS")
    valor_cofins := ← pyFloatD0 (← pyGetOpt icmsTot "vCOFINS") }
  let itens ← extrairItens chave detL
  pure (cab, itens)

/-- `pathlib.PurePath.suffix`/`.stem`: the final dot splits off a suffix only
when it is neither the first nor the last character of the name. -/
def pyStemSuffix (name : String) : String × String :=
  let cs := name.toList
  let revTail := cs.reverse.takeWhile (· ≠ '.')
  if revTail.length = cs.length ∨ revTail.length = 0 ∨ revTail.length = cs.length - 1
  then (name, "")
  else (⟨cs.take (cs.length - revTail.length - 1)⟩, ⟨'.' :: revTail.reverse⟩)

def pyStem (name : String) : String := (pyStemSuffix name).1

def pySuffix (name : String) : String := (pyStemSuffix name).2

/-- Decimal numeral of a natural number (most significant digit first). -/
def decChar : Nat → Char
  | 0 => '0' | 1 => '1' | 2 => '2' | 3 => '3' | 4 => '4'
  | 5 => '5' | 6 => '6' | 7 => '7' | 8 => '8' | _ => '9'

def decDigits (n : Nat) : List Char := (Nat.digits 10 n).reverse.map decChar

/-- Python `f'{contador:03d}'`: the decimal numeral left-padded with zeros
to width three. -/
def pad3 (n : Nat) : String :=
  ⟨List.replicate (3 - (decDigits n).length) '0' ++ decDigits n⟩

/-- Line 371: `novo_nome = f'{nome_base}_{contador:03d}-{extensao}'` — note
the stray `-` before the extension. -/
def candidato (pasta stem ext : String) (c : Nat) : String × String :=
  (pasta, stem ++ "_" ++ pad3 c ++ "-" ++ ext)

/-- The `while nome_destino.exists()` loop of `gerar_nome_unico`
(lines 370-373), with fuel (the loop provably stops within
`|existing| + 1` probes, see `gerarGo_spec`). -/
def gerarGo (existing : List (String × String)) (pasta stem ext : String) :
    Nat → Nat → String × String
  | c, 0 => candidato pasta stem ext c
  | c, fuel + 1 =>
      if candidato pasta stem ext c ∈ existing then
        gerarGo existing pasta stem ext (c + 1) fuel
      else candidato pasta stem ext c

/-- `ProcessadorNFe.gerar_nome_unico` (lines 351-375) over the list of
currently existing destination paths. -/
def gerar_nome_unico (existing : List (String × String))
    (nomeOriginal pasta : String) : String × String :=
  if (pasta, nomeOriginal) ∈ existing then
    gerarGo existing pasta (pyStem nomeOriginal) (pySuffix nomeOriginal) 1
      (existing.length + 1)
  else (pasta, nomeOriginal)

/-- A row of `nfe_cabecalho` (columns of lines 207-228, minus the synthetic
`id`/`data_processamento` columns, which no claim touches). -/
structure CabRow extends Cabecalho where
  arquivo_xml : String
  caminho_original : String

/-- The relational store: the two tables created by `inicializar_banco`. -/
structure DB where
  cabecalhos : List CabRow
  itens : List Item

/-- Values Python's `sqlite3` driver can bind: here strings and `None`
(numbers and dates in our rows are typed separately). -/
def bindable : XVal → Bool
  | .str _ => true
  | .null => true
  | _ => false

def cabBindOk (c : Cabecalho) : Bool :=
  bindable c.numero_nf && bindable c.serie && bindable c.tipo_operacao &&
  bindable c.cnpj_emitente && bindable c.nome_emitente &&
  bindable c.cnpj_destinatario && bindable c.nome_destinatario

def itemBindOk (it : Item) : Bool :=
  bindable it.codigo_produto && bindable it.descricao_produto &&
  bindable it.cfop && bindable it.unidade_comercial

/-- The committed effect of `salvar_no_banco` (lines 377-431):
`INSERT OR REPLACE` of the header keyed by `chave_acesso`, then
`DELETE FROM nfe_itens WHERE chave_acesso = ?`, then insertion of the new
item rows — all inside the one transaction ended by `conn.commit()`. -/
def salvar_no_banco (db : DB) (cab : Cabecalho) (itens : List Item)
    (nomeArquivo caminhoOriginal : String) : DB :=
  let row : CabRow := { toCabecalho := cab, arquivo_xml := nomeArquivo,
                        caminho_original := caminhoOriginal }
  { cabecalhos :=
      db.cabecalhos.filter (fun r => r.chave_acesso ≠ cab.chave_acesso) ++ [row]
    itens :=
      db.itens.filter (fun r => r.chave_acesso ≠ cab.chave_acesso) ++ itens }

/-- `salvar_no_banco` with its failure modes: an environmental SQLite error
(`dbFail`, e.g. a locked or unwritable database) or an unbindable parameter.
Any exception escapes before `conn.commit()`, so the transaction is rolled
back and the store keeps its previous contents. -/
def salvarExc (dbFail : Bool) (db : DB) (cab : Cabecalho) (itens : List Item)
    (nomeArquivo caminhoOriginal : String) : Except String DB :=
  if dbFail then .error "OperationalError"
  else if cabBindOk cab && itens.all itemBindOk then
    .ok (salvar_no_banco db cab itens nomeArquivo caminhoOriginal)
  else .error "InterfaceError"

/-- A leveled log line. -/
inductive LogEntry where
  | info : String → LogEntry
  | error : String → LogEntry
deriving DecidableEq

/-- Resolved configuration paths (`pasta_xml`, `pasta_processados`,
`pasta_erros`), as produced by the configuration provider. -/
structure Cfg where
  pasta_xml : String
  pasta_processados : String
  pasta_erros : String

/-- The mutable state `processar_xml` acts on: files (keyed by
(directory, basename) with their textual content), the store, the log. -/
structure World where
  files : List ((String × String) × String)
  db : DB
  log : List LogEntry

/-- Environmental outcomes of the external calls made by one
`processar_xml` run: the result of `xmltodict.parse`, and whether the
SQLite write and each `shutil.move` fail for I/O reasons. -/
structure Env where
  parse : String → Except String XVal
  dbFail : Bool
  moveProcFail : Bool
  moveErrFail : Bool

def logI (w : World) (s : String) : World := { w with log := w.log ++ [.info s] }

def logE (w : World) (s : String) : World := { w with log := w.log ++ [.error s] }

def fsKeys (w : World) : List (String × String) := w.files.map (·.1)

def lookupFile (w : World) (p : String × String) : Option String :=
  (w.files.find? (fun e => e.1 = p)).map (·.2)

/-- Lines 437-440 and 464-467: `arquivo_xml.relative_to(self.pasta_xml)`,
falling back to `arquivo_xml.name` on `ValueError`. -/
def relPath (pastaXml : String) (f : String × String) : String :=
  if f.1 = pastaXml then f.2
  else if (pastaXml ++ "/").isPrefixOf f.1 then
    f.1.drop (pastaXml.length + 1) ++ "/" ++ f.2
  else f.2

/-- `shutil.move(arquivo, destino)`: fails when the environment says so or
when the source file does not exist; otherwise relocates the content. -/
def moveFile (w : World) (src dst : String × String) (envFail : Bool) :
    Except String World :=
  if envFail then .error "OSError: move failed"
  else
    match lookupFile w src with
    | none => .error "FileNotFoundError"
    | some content =>
        .ok { w with files :=
                w.files.filter (fun e => e.1 ≠ src) ++ [(dst, content)] }

/-- Rendering of an already-bindable value in the f-string of line 427. -/
def xvalText : XVal → String
  | .str s => s
  | .null => "None"
  | _ => "?"

/-- The guarded body of `processar_xml` (lines 435-461): read, parse,
extract, save, move to `processados`.  Returns the world as mutated so far
together with the exception, if one was raised. -/
def processar_core (cfg : Cfg) (env : Env) (w : World) (file : String × String) :
    World × Option String :=
  let rel := relPath cfg.pasta_xml file
  let w1 := logI w ("Processando arquivo: " ++ rel)
  match lookupFile w1 file with
  | none => (w1, some "FileNotFoundError")
  | some content =>
    match env.parse content with
    | .error e => (w1, some e)
    | .ok xmlDict =>
      match extrair_dados_nfe xmlDict with
      | .error e => (logE w1 ("Erro ao extrair dados da NFe: " ++ e), some e)
      | .ok (cab, itens) =>
        match salvarExc env.dbFail w1.db cab itens file.2 rel with
        | .error e => (logE w1 ("Erro ao salvar no banco de dados: " ++ e), some e)
        | .ok db2 =>
          let w2 := logI { w1 with db := db2 }
            ("NFe salva no banco: " ++ xvalText cab.numero_nf ++ " - " ++
             toString itens.length ++ " itens")
          let destino := gerar_nome_unico (fsKeys w2) file.2 cfg.pasta_processados
          match moveFile w2 file destino env.moveProcFail with
          | .error e => (w2, some e)
          | .ok w3 => (logI w3 ("Arquivo processado com sucesso: " ++ file.2), none)

/-- `ProcessadorNFe.processar_xml` (lines 433-477): on any exception from the
body, log the error with the relative path and try to move the file to the
error area; if that move also fails, just log — never re-raise. -/
def processar_xml (cfg : Cfg) (env : Env) (w : World) (file : String × String) :
    World :=
  match processar_core cfg env w file with
  | (w', none) => w'
  | (w', some e) =>
      let rel := relPath cfg.pasta_xml file
      let w1 := logE w' ("Erro ao processar " ++ rel ++ ": " ++ e)
      let destinoErro := gerar_nome_unico (fsKeys w1) file.2 cfg.pasta_erros
      match moveFile w1 file destinoErro env.moveErrFail with
      | .ok w2 => logI w2 ("Arquivo movido para pasta de erros: " ++ file.2)
      | .error e2 => logE w1 ("Erro ao mover arquivo para pasta de erros: " ++ e2)

/-- The read/parse/extract stage of `processar_xml` — everything that runs
strictly before the store write. -/
def preStore (env : Env) (w : World) (file : String × String) :
    Except String (Cabecalho × List Item) :=
  match lookupFile w file with
  | none => .error "FileNotFoundError"
  | some content =>
    match env.parse content with
    | .error e => .error e
    | .ok xmlDict => extrair_dados_nfe xmlDict

/-- The read/parse/extract/persist stage of `processar_xml` — everything up
to and including the store write (the call to `salvar_no_banco`), i.e. every
failure source of the claim except the final moves. -/
def preMove (cfg : Cfg) (env : Env) (w : World) (file : String × String) :
    Except String DB :=
  match preStore env w file with
  | .error e => .error e
  | .ok (cab, itens) =>
      salvarExc env.dbFail w.db cab itens file.2 (relPath cfg.pasta_xml file)

/-- `name` ends with `suf`, case-sensitively. -/
def terminaCom (name suf : String) : Bool :=
  List.isPrefixOf suf.data.reverse name.data.reverse

/-- Line 523 (`busca_recursiva` false): `pasta_xml.glob('*xml')` — fnmatch of
the pattern `*xml`, i.e. any basename ending in `xml` (pathlib globbing is
case-sensitive and does not skip dot-files). -/
def sweepMatchFlat (name : String) : Bool := terminaCom name "xml"

/-- Line 520 (`busca_recursiva` true): `pasta_xml.rglob('*.xml')` — any
basename ending in `.xml`, case-sensitively. -/
def sweepMatchRec (name : String) : Bool := terminaCom name ".xml"

/-- The enumeration of `processar_arquivos_existentes` (lines 512-534) over a
directory listing: `rootNames` are the basenames directly in the watched
root, `allNames` the basenames of all files under it recursively. -/
def listagemVarredura (buscaRecursiva : Bool) (rootNames allNames : List String) :
    List String :=
  if buscaRecursiva then allNames.filter sweepMatchRec
  else rootNames.filter sweepMatchFlat

/-- Python `str.lower` (ASCII range suffices for the names compared here). -/
def pyLower (s : String) : String := ⟨s.data.map Char.toLower⟩

/-- Line 485: `arquivo.suffix.lower() != '.xml'` — the live-watch handler's
extension check is case-insensitive. -/
def onCreatedMatch (name : String) : Bool := pyLower (pySuffix name) = ".xml"

/-- The guard sequence of `on_created` (lines 479-510): skip directories,
non-`.xml` suffixes (case-insensitively), paths outside the watched root,
and files that vanished during the settle wait. -/
def on_created_aceita (isDirectory : Bool) (pastaXml : String)
    (file : String × String) (existsAposEspera : Bool) : Bool :=
  if isDirectory then false
  else if ¬ onCreatedMatch file.2 then false
  else if ¬ (file.1 = pastaXml ∨ (pastaXml ++ "/").isPrefixOf file.1) then false
  else if ¬ existsAposEspera then false
  else true

/-- Observable pipeline events of the startup sequence in `main`. -/
inductive Ev where
  | log : String → Ev
  | ingest : (String × String) → Ev
  | watchScheduled : String → Ev
  | watchStarted : Ev
deriving DecidableEq

def isIngest : Ev → Bool
  | .ingest _ => true
  | _ => false

def isLogEv : Ev → Bool
  | .log _ => true
  | _ => false

/-- Trace of `processar_arquivos_existentes` (lines 512-536): an opening log,
then, per enumerated file, its log line followed by its ingestion, then the
completion log. -/
def sweepDoneMsg (n : Nat) : String :=
  "Processamento inicial concluído! " ++ toString n ++ " arquivos processados"

def sweepTrace (pastaXml : String) (arquivos : List (String × String)) : List Ev :=
  [.log "Processando arquivos XML existentes..."] ++
  arquivos.flatMap (fun f =>
    [.log ("Processando arquivo existente: " ++ relPath pastaXml f), .ingest f]) ++
  [.log (sweepDoneMsg arquivos.length)]

/-- Trace of `main` (lines 538-579): startup logs, the backlog sweep run to
completion, one separator log, then `observer.schedule` and
`observer.start`, then the steady-state log.  `arquivos` is the sweep's
enumeration (already restricted to regular files, line 526). -/
def mainTrace (cfg : Cfg) (arquivos : List (String × String)) : List Ev :=
  [.log "Iniciando processador de NFe...",
   .log "Monitorando pasta: ...", .log "="] ++
  sweepTrace cfg.pasta_xml arquivos ++
  [.log "="] ++
  [.watchScheduled cfg.pasta_xml, .watchStarted] ++
  [.log "Monitoramento ativo! Pressione Ctrl+C para parar."]

def scenarioDet : XVal := .map [
  ("@nItem", .str "1"),
  ("prod", .map [("cProd", .str "P1"), ("xProd", .str "Produto"), ("CFOP", .str "5102"),
    ("uCom", .str "UN"), ("qCom", .str "2.0"), ("vUnCom", .str "50.00"), ("vProd", .str "100.00")]),
  ("imposto", .map [
    ("ICMS", .map [("ICMS00", .map [("vICMS", .str "18.00")])]),
    ("PIS", .map [("PISAliq", .map [("vPIS", .str "1.65")])]),
    ("COFINS", .map [("COFINSAliq", .map [("vCOFINS", .str "7.60")])])])]

/-- A complete, well-formed document tree with the spec's concrete access key
and the given `det` field. -/
def treeComDet (det : XVal) : XVal := .map [("NFe", .map [("infNFe", .map [
  ("@Id", .str "NFe35200714200166000187550010000000046550010466"),
  ("ide", .map [("nNF", .str "4"), ("serie", .str "1"), ("dEmi", .str "2020-07-10"), ("natOp", .str "VENDA")]),
  ("emit", .map [("CNPJ", .str "14200166000187"), ("xNome", .str "Emitente")]),
  ("dest", .map [("CNPJ", .str "99999999000191"), ("xNome", .str "Destinatario")]),
  ("total", .map [("ICMSTot", .map [("vNF", .str "100.00"), ("vICMS", .str "18.00"),
    ("vPIS", .str "1.65"), ("vCOFINS", .str "7.60")])]),
  ("det", det)])])]

def scenarioTree : XVal := treeComDet scenarioDet

lemma extrairItens_length (chave : String) :
    ∀ (L : List XVal) (l : List Item),
      extrairItens chave L = .ok l → l.length = L.length := by
  intro L
  induction L with
  | nil => intro l h; simp [extrairItens] at h; simp [← h]
  | cons it rest ih =>
      intro l h
      simp only [extrairItens, bind, Except.bind] at h
      cases hd : extrairItem chave it with
      | error e => rw [hd] at h; exact absurd h (by simp)
      | ok d =>
          rw [hd] at h
          cases hr : extrairItens chave rest with
          | error e => rw [hr] at h; exact absurd h (by simp)
          | ok ds =>
              rw [hr] at h
              simp only [pure, Except.pure, Except.ok.injEq] at h
              subst h
              simp [ih ds hr]

/-- C3: extraction yields one `Item` per line item: a lone (non-sequence)
`det` value is normalized to a one-element list before iteration, a sequence
is kept as is, and whenever the item loop succeeds the extracted list's
length equals the normalized list's length — concretely, the same document
yields one item whether its single line item is a lone structure or a
one-element sequence. -/
theorem c3_um_item_por_linha :
    (∀ (chave : String) (det : XVal),
       (extrairItens chave (pyToList det)).toOption.elim True
         (fun l => l.length = (pyToList det).length))
  ∧ (∀ (m : List (String × XVal)), pyToList (.map m) = [.map m])
  ∧ (∀ (l : List XVal), pyToList (.seq l) = l)
  ∧ (extrair_dados_nfe (treeComDet scenarioDet)).toOption.map (fun p => p.2.length) = some 1
  ∧ (extrair_dados_nfe (treeComDet (.seq [scenarioDet]))).toOption.map (fun p => p.2.length) = some 1 := by
  refine ⟨?_, fun m => rfl, fun l => rfl, by decide, by decide⟩
  intro chave det
  cases h : extrairItens chave (pyToList det) with
  | error e => simp [Except.toOption, h]
  | ok l => simp [Except.toOption, h, extrairItens_length chave _ l h]

/-- C2, counterexample: for the parsed tree whose identifier attribute is
`"NFeNFe"`, the code extracts the access key `""` (Python `str.replace`
removes every occurrence of `"NFe"`), while the identifier with only the
fixed leading marker removed would be `"NFe"` — so the extracted key is not
"the identifier with the fixed textual prefix removed". -/
theorem c2_contraexemplo :
    (extrair_dados_nfe (.map [("NFe", .map [("infNFe", .map [("@Id", .str "NFeNFe")])])])).toOption.map
      (fun p => p.1.chave_acesso) = some ""
  ∧ stripLeadingNFe "NFeNFe" = "NFe"
  ∧ ("" : String) ≠ "NFe" := by
  refine ⟨by decide, by decide, by decide⟩

/-- C2 (amended): the extracted access key equals the identifier attribute
with every occurrence of the substring `"NFe"` removed (for identifiers in
which `"NFe"` occurs only as the leading marker, such as the concrete
scenario, this coincides with prefix removal); a missing identifier yields
the empty key without an extraction error; and the concrete scenario
document extracts access key
`"35200714200166000187550010000000046550010466"` with one item. -/
theorem c2_chave_por_replace :
    (∀ (infm : List (String × XVal)) (s : String),
       pyLookup infm "@Id" = some (.str s) →
       extrairChave (.map infm) = .ok (pyReplaceNFe s))
  ∧ (extrair_dados_nfe (.map [("NFe", .map [("infNFe", .map [])])])).toOption.map
      (fun p => p.1.chave_acesso) = some ""
  ∧ (extrair_dados_nfe scenarioTree).toOption.map
      (fun p => (p.1.chave_acesso, p.2.length)) =
      some ("35200714200166000187550010000000046550010466", 1) := by
  refine ⟨?_, by decide, by decide⟩
  intro infm s h
  simp [extrairChave, pyGetD, h, bind, Except.bind, pure, Except.pure]

theorem c2_chave_witness :
    extrairChave (.map [("@Id", .str "NFeNFe")]) = .ok (pyReplaceNFe "NFeNFe") :=
  c2_chave_por_replace.1 [("@Id", .str "NFeNFe")] "NFeNFe" rfl

/-- C4: each tax sub-document is looked up by its tax name in the item's
tax block; when absent (no binding, a `None` binding from an empty element,
or an empty mapping) the tax value is 0 with no error; when present as a
mapping, the value of its first (single) variant key — whatever its name —
is the source: a variant mapping lacking the value field gives 0 with no
error, and a variant mapping with a string value field gives that parsed
value. -/
theorem c4_impostos :
    ∀ (m vm r : List (String × XVal)) (tk vk k s : String),
    (pyLookup m tk = none → extractTax (.map m) tk vk = .ok 0)
  ∧ (pyLookup m tk = some .null → extractTax (.map m) tk vk = .ok 0)
  ∧ (pyLookup m tk = some (.map []) → extractTax (.map m) tk vk = .ok 0)
  ∧ (pyLookup m tk = some (.map ((k, .map vm) :: r)) →
       (pyLookup vm vk = none → extractTax (.map m) tk vk = .ok 0)
     ∧ (pyLookup vm vk = some (.str s) →
          extractTax (.map m) tk vk = pyFloatStr s)) := by
  intro m vm r tk vk k s
  refine ⟨?_, ?_, ?_, ?_⟩
  · intro h; simp [extractTax, pyGetD, h, bind, Except.bind, pure, Except.pure, truthy, pyGetOpt, pyFloatD0, pyLookup]
  · intro h; simp [extractTax, pyGetD, h, bind, Except.bind, pure, Except.pure, truthy, pyGetOpt, pyFloatD0, pyLookup]
  · intro h; simp [extractTax, pyGetD, h, bind, Except.bind, pure, Except.pure, truthy, pyGetOpt, pyFloatD0, pyLookup]
  · intro h
    constructor
    · intro hv
      simp [extractTax, pyGetD, h, bind, Except.bind, pure, Except.pure, truthy, pyGetOpt, pyFloatD0, hv]
    · intro hv
      simp [extractTax, pyGetD, h, bind, Except.bind, pure, Except.pure, truthy, pyGetOpt, pyFloatD0, hv]

theorem c4_witness :
    extractTax (.map []) "ICMS" "vICMS" = .ok 0
  ∧ extractTax (.map [("ICMS", .map [("ICMS00", .map [("vICMS", .str "18.00")])])])
      "ICMS" "vICMS" = pyFloatStr "18.00" :=
  ⟨(c4_impostos [] [] [] "ICMS" "vICMS" "" "").1 rfl,
   ((c4_impostos [("ICMS", .map [("ICMS00", .map [("vICMS", .str "18.00")])])]
      [("vICMS", .str "18.00")] [] "ICMS" "vICMS" "ICMS00" "18.00").2.2.2 rfl).2 rfl⟩

def chaveCabs (db : DB) (k : String) : List CabRow :=
  db.cabecalhos.filter (fun r => r.chave_acesso = k)

def chaveItens (db : DB) (k : String) : List Item :=
  db.itens.filter (fun r => r.chave_acesso = k)

/-- C1: a successful `salvar_no_banco` (one committed transaction) leaves
exactly one header row for the document's access key — the new one — and an
item set for that key equal to the new document's items (whose key fields
all carry the document key, as extraction guarantees), with no old item
surviving; rows under any other access key are untouched; and an
environmental database failure raises before the commit, so nothing is
written. -/
theorem c1_upsert_atomico :
    ∀ (dbFail : Bool) (db : DB) (cab : Cabecalho) (itens : List Item)
      (nome caminho : String),
    itens.all (fun it => it.chave_acesso == cab.chave_acesso) = true →
    (∀ db', salvarExc dbFail db cab itens nome caminho = .ok db' →
        chaveCabs db' cab.chave_acesso =
          [{ toCabecalho := cab, arquivo_xml := nome, caminho_original := caminho }]
      ∧ chaveItens db' cab.chave_acesso = itens
      ∧ ∀ k, k ≠ cab.chave_acesso →
          chaveCabs db' k = chaveCabs db k ∧ chaveItens db' k = chaveItens db k)
  ∧ (dbFail = true →
      salvarExc dbFail db cab itens nome caminho = .error "OperationalError") := by
  intro dbFail db cab itens nome caminho hall
  constructor
  · intro db' h
    have hok : db' = salvar_no_banco db cab itens nome caminho := by
      by_cases hf : dbFail
      · simp [salvarExc, hf] at h
      · by_cases hb : cabBindOk cab && itens.all itemBindOk
        · simpa [salvarExc, hf, hb] using h.symm
        · simp [salvarExc, hf, hb] at h
    subst hok
    refine ⟨?_, ?_, ?_⟩
    · simp only [chaveCabs, salvar_no_banco, List.filter_append, List.filter_filter]
      simp
    · simp only [chaveItens, salvar_no_banco, List.filter_append, List.filter_filter]
      have : itens.filter (fun r => r.chave_acesso = cab.chave_acesso) = itens := by
        refine List.filter_eq_self.mpr ?_
        intro a ha
        have := List.all_eq_true.mp hall a ha
        simpa using this
      simp [this]
    · intro k hk
      constructor
      · simp only [chaveCabs, salvar_no_banco, List.filter_append, List.filter_filter]
        have h1 : ∀ (r : CabRow), (decide (r.chave_acesso = k) &&
            decide (r.chave_acesso ≠ cab.chave_acesso)) = decide (r.chave_acesso = k) := by
          intro r
          by_cases hr : r.chave_acesso = k
          · simp [hr, hk]
          · simp [hr]
        simp only [h1]
        simp [List.filter_cons, List.filter_nil, Ne.symm hk, chaveCabs]
      · simp only [chaveItens, salvar_no_banco, List.filter_append, List.filter_filter]
        have h1 : ∀ (r : Item), (decide (r.chave_acesso = k) &&
            decide (r.chave_acesso ≠ cab.chave_acesso)) = decide (r.chave_acesso = k) := by
          intro r
          by_cases hr : r.chave_acesso = k
          · simp [hr, hk]
          · simp [hr]
        simp only [h1]
        have : itens.filter (fun r => r.chave_acesso = k) = [] := by
          refine List.filter_eq_nil_iff.mpr ?_
          intro a ha
          have := List.all_eq_true.mp hall a ha
          simp only [beq_iff_eq] at this
          simp [this, Ne.symm hk]
        simp [this]
  · intro hf; simp [salvarExc, hf]

def cabAntigo : Cabecalho :=
  { chave_acesso := "K1", numero_nf := .str "1", serie := .str "1",
    data_emissao := none, data_saida_entrada := none, tipo_operacao := .str "V",
    cnpj_emitente := .str "e", nome_emitente := .str "E",
    cnpj_destinatario := .str "d", nome_destinatario := .str "D",
    valor_total := 10, valor_icms := 1, valor_pis := 0, valor_cofins := 0 }

def cabNovo : Cabecalho := { cabAntigo with numero_nf := .str "2", valor_total := 20 }

def itemDe (k : String) (n : Int) : Item :=
  { chave_acesso := k, numero_item := n, codigo_produto := .str "P",
    descricao_produto := .str "Prod", cfop := .str "5102",
    unidade_comercial := .str "UN", quantidade_comercial := 1,
    valor_unitario_comercial := 1, valor_total_produto := 1,
    valor_icms := 0, valor_pis := 0, valor_cofins := 0 }

/-- A store already holding a header and two items for key `"K1"` and one
header/item pair under the unrelated key `"K2"`. -/
def dbAntigo : DB :=
  { cabecalhos := [{ toCabecalho := cabAntigo, arquivo_xml := "a.xml", caminho_original := "a.xml" },
                   { toCabecalho := { cabAntigo with chave_acesso := "K2" },
                     arquivo_xml := "b.xml", caminho_original := "b.xml" }],
    itens := [itemDe "K1" 1, itemDe "K1" 2, itemDe "K2" 1] }

theorem c1_witness :
    chaveCabs (salvar_no_banco dbAntigo cabNovo [itemDe "K1" 7] "a2.xml" "a2.xml") "K1" =
      [{ toCabecalho := cabNovo, arquivo_xml := "a2.xml", caminho_original := "a2.xml" }]
  ∧ chaveItens (salvar_no_banco dbAntigo cabNovo [itemDe "K1" 7] "a2.xml" "a2.xml") "K1" =
      [itemDe "K1" 7] :=
  let h := (c1_upsert_atomico false dbAntigo cabNovo [itemDe "K1" 7] "a2.xml" "a2.xml"
    (by decide)).1 (salvar_no_banco dbAntigo cabNovo [itemDe "K1" 7] "a2.xml" "a2.xml") rfl
  ⟨h.1, h.2.1⟩

lemma decChar_toNat {d : Nat} (h : d < 10) : (decChar d).toNat - 48 = d := by
  interval_cases d <;> rfl

lemma foldl_map_decChar : ∀ (l : List Nat) (acc : Nat), (∀ d ∈ l, d < 10) →
    (l.map decChar).foldl (fun a c => a * 10 + (c.toNat - 48)) acc =
    l.foldl (fun a d => a * 10 + d) acc := by
  intro l
  induction l with
  | nil => intro acc _; rfl
  | cons d rest ih =>
      intro acc h
      simp only [List.map_cons, List.foldl_cons]
      rw [decChar_toNat (h d (by simp))]
      exact ih _ (fun x hx => h x (by simp [hx]))

lemma foldl_reverse_ofDigits : ∀ (ds : List Nat) (acc : Nat),
    ds.reverse.foldl (fun a d => a * 10 + d) acc =
    acc * 10 ^ ds.length + Nat.ofDigits 10 ds := by
  intro ds
  induction ds with
  | nil => intro acc; simp
  | cons d rest ih =>
      intro acc
      simp only [List.reverse_cons, List.foldl_append, List.foldl_cons,
        List.foldl_nil, ih, Nat.ofDigits_cons, List.length_cons]
      ring

lemma digitsVal_decDigits (n : Nat) : digitsVal (decDigits n) = n := by
  have h10 : ∀ d ∈ (Nat.digits 10 n).reverse, d < 10 := by
    intro d hd
    exact Nat.digits_lt_base (by norm_num) (List.mem_reverse.mp hd)
  have : decDigits n = ((Nat.digits 10 n).reverse).map decChar := rfl
  rw [digitsVal, this, foldl_map_decChar _ _ h10, foldl_reverse_ofDigits]
  simpa using Nat.ofDigits_digits 10 n

lemma digitsVal_replicate_zero : ∀ (k : Nat) (l : List Char),
    digitsVal (List.replicate k '0' ++ l) = digitsVal l := by
  intro k
  induction k with
  | zero => intro l; simp
  | succ k ih =>
      intro l
      have : List.replicate (k + 1) '0' ++ l = '0' :: (List.replicate k '0' ++ l) := by
        simp [List.replicate_succ]
      rw [this]
      have h0 : ∀ (cs : List Char) (a : Nat),
          ('0' :: cs).foldl (fun a c => a * 10 + (c.toNat - 48)) a =
          cs.foldl (fun a c => a * 10 + (c.toNat - 48)) (a * 10) := by
        intro cs a; rfl
      show digitsVal ('0' :: (List.replicate k '0' ++ l)) = _
      rw [digitsVal, h0]
      simpa [digitsVal] using ih l

lemma pad3_val (n : Nat) : digitsVal (pad3 n).data = n := by
  show digitsVal (List.replicate (3 - (decDigits n).length) '0' ++ decDigits n) = n
  rw [digitsVal_replicate_zero, digitsVal_decDigits]

lemma pad3_inj {a b : Nat} (h : pad3 a = pad3 b) : a = b := by
  have := congrArg (fun s => digitsVal s.data) h
  simpa [pad3_val] using this

lemma candidato_inj {p s e : String} {c1 c2 : Nat}
    (h : candidato p s e c1 = candidato p s e c2) : c1 = c2 := by
  have h2 : s ++ "_" ++ pad3 c1 ++ "-" ++ e = s ++ "_" ++ pad3 c2 ++ "-" ++ e := by
    simpa [candidato] using congrArg Prod.snd h
  have hd := congrArg String.data h2
  simp only [String.data_append] at hd
  have hd1 := List.append_cancel_right hd
  have hd2 := List.append_cancel_right hd1
  have hd3 := List.append_cancel_left hd2
  exact pad3_inj (String.ext hd3)

lemma gerarGo_spec (fs : List (String × String)) (p s e : String) :
    ∀ (fuel c : Nat), (∃ k, k < fuel ∧ candidato p s e (c + k) ∉ fs) →
    gerarGo fs p s e c fuel ∉ fs ∧
    ∃ k, k < fuel ∧ gerarGo fs p s e c fuel = candidato p s e (c + k) ∧
      ∀ j, c ≤ j → j < c + k → candidato p s e j ∈ fs := by
  intro fuel
  induction fuel with
  | zero => intro c ⟨k, hk, _⟩; omega
  | succ fuel ih =>
      intro c ⟨k, hk, hfree⟩
      by_cases hc : candidato p s e c ∈ fs
      · have hk0 : k ≠ 0 := by
          intro h0; rw [h0] at hfree; simp at hfree; exact hfree hc
        have hpre : ∃ k', k' < fuel ∧ candidato p s e (c + 1 + k') ∉ fs := by
          refine ⟨k - 1, by omega, ?_⟩
          have : c + 1 + (k - 1) = c + k := by omega
          rw [this]; exact hfree
        obtain ⟨hmem, k', hk', heq, hall⟩ := ih (c + 1) hpre
        have hgo : gerarGo fs p s e c (fuel + 1) = gerarGo fs p s e (c + 1) fuel := by
          simp [gerarGo, hc]
        refine ⟨?_, ⟨k' + 1, ?_, ?_, ?_⟩⟩
        · rw [hgo]; exact hmem
        · omega
        · rw [hgo, heq]; congr 1; omega
        · intro j hj1 hj2
          rcases Nat.eq_or_lt_of_le hj1 with h | h
          · rw [← h]; exact hc
          · exact hall j (by omega) (by omega)
      · have hgo : gerarGo fs p s e c (fuel + 1) = candidato p s e c := by
          simp [gerarGo, hc]
        exact ⟨by rw [hgo]; exact hc, 0, by omega, by rw [hgo]; norm_num,
          fun j hj1 hj2 => by omega⟩

lemma exists_candidato_livre (fs : List (String × String)) (p s e : String) (c : Nat) :
    ∃ k, k < fs.length + 1 ∧ candidato p s e (c + k) ∉ fs := by
  by_contra hcon
  push_neg at hcon
  have hall : ∀ k, k < fs.length + 1 → candidato p s e (c + k) ∈ fs := hcon
  set l := (List.range (fs.length + 1)).map (fun k => candidato p s e (c + k)) with hl
  have hnd : l.Nodup := by
    refine List.Nodup.map ?_ (List.nodup_range _)
    intro a b hab
    have := candidato_inj hab
    omega
  have hsub : ∀ x ∈ l, x ∈ fs := by
    intro x hx
    rw [hl] at hx
    obtain ⟨k, hk, rfl⟩ := List.mem_map.mp hx
    exact hall k (List.mem_range.mp hk)
  have h1 : l.toFinset.card = fs.length + 1 := by
    rw [List.toFinset_card_of_nodup hnd, hl]
    simp
  have h2 : l.toFinset ⊆ fs.toFinset := by
    intro x hx
    exact List.mem_toFinset.mpr (hsub x (List.mem_toFinset.mp hx))
  have h3 := Finset.card_le_card h2
  have h4 := List.toFinset_card_le fs
  omega

lemma gerar_nome_unico_spec (fs : List (String × String)) (nome pasta : String) :
    ((pasta, nome) ∉ fs → gerar_nome_unico fs nome pasta = (pasta, nome))
  ∧ gerar_nome_unico fs nome pasta ∉ fs
  ∧ ((pasta, nome) ∈ fs → ∃ c, 1 ≤ c ∧
      gerar_nome_unico fs nome pasta = candidato pasta (pyStem nome) (pySuffix nome) c ∧
      ∀ j, 1 ≤ j → j < c → candidato pasta (pyStem nome) (pySuffix nome) j ∈ fs) := by
  by_cases hmem : (pasta, nome) ∈ fs
  · have hfree := exists_candidato_livre fs pasta (pyStem nome) (pySuffix nome) 1
    obtain ⟨hnot, k, hk, heq, hall⟩ :=
      gerarGo_spec fs pasta (pyStem nome) (pySuffix nome) (fs.length + 1) 1 hfree
    have hdef : gerar_nome_unico fs nome pasta =
        gerarGo fs pasta (pyStem nome) (pySuffix nome) 1 (fs.length + 1) := by
      simp [gerar_nome_unico, hmem]
    refine ⟨fun h => absurd hmem h, by rw [hdef]; exact hnot, fun _ => ?_⟩
    exact ⟨1 + k, by omega, by rw [hdef]; exact heq,
      fun j hj1 hj2 => hall j hj1 hj2⟩
  · have hdef : gerar_nome_unico fs nome pasta = (pasta, nome) := by
      simp [gerar_nome_unico, hmem]
    exact ⟨fun _ => hdef, by rw [hdef]; exact hmem, fun h => absurd h hmem⟩

/-- C7: `gerar_nome_unico` returns the destination with the original name
when that name is free; it never returns an existing path (so an earlier
file with the same name is not overwritten); and on a collision it returns
the first free zero-padded candidate `<stem>_<NNN>-<ext>` — counting from
001, every earlier candidate being occupied — with the stray `-` separator
before the extension. -/
theorem c7_nome_unico :
    ∀ (existing : List (String × String)) (nome pasta : String),
    ((pasta, nome) ∉ existing → gerar_nome_unico existing nome pasta = (pasta, nome))
  ∧ gerar_nome_unico existing nome pasta ∉ existing
  ∧ ((pasta, nome) ∈ existing → ∃ c, 1 ≤ c ∧
      gerar_nome_unico existing nome pasta =
        (pasta, pyStem nome ++ "_" ++ pad3 c ++ "-" ++ pySuffix nome) ∧
      ∀ j, 1 ≤ j → j < c →
        (pasta, pyStem nome ++ "_" ++ pad3 j ++ "-" ++ pySuffix nome) ∈ existing) :=
  fun existing nome pasta => gerar_nome_unico_spec existing nome pasta

theorem c7_witness :
    gerar_nome_unico [("p", "nota.xml"), ("p", "nota_001-.xml")] "nota.xml" "p"
      ∉ [("p", "nota.xml"), ("p", "nota_001-.xml")]
  ∧ gerar_nome_unico [] "nota.xml" "p" = ("p", "nota.xml") :=
  ⟨(c7_nome_unico [("p", "nota.xml"), ("p", "nota_001-.xml")] "nota.xml" "p").2.1,
   (c7_nome_unico [] "nota.xml" "p").1 (by decide)⟩

lemma sweep_filter_ingest (px : String) :
    ∀ (l : List (String × String)),
    (l.flatMap fun f =>
      [Ev.log ("Processando arquivo existente: " ++ relPath px f), Ev.ingest f]).filter
        isIngest = l.map Ev.ingest := by
  intro l
  induction l with
  | nil => rfl
  | cons f rest ih => simp [List.flatMap_cons, List.filter_append, isIngest, ih]

/-- C8: in the startup trace of `main`, the backlog sweep runs to completion
— every enumerated file ingested, in enumeration order — strictly before the
watch subscription is scheduled and started, and between the sweep's
completion log and the watch registration there are only log lines (no other
pipeline work). -/
theorem c8_varredura_antes_do_watch :
    ∀ (cfg : Cfg) (arquivos : List (String × String)),
    (mainTrace cfg arquivos).filter isIngest = arquivos.map Ev.ingest
  ∧ (∃ a b, mainTrace cfg arquivos =
        a ++ [Ev.watchScheduled cfg.pasta_xml, Ev.watchStarted] ++ b
      ∧ (∀ e ∈ b, isIngest e = false)
      ∧ a.filter isIngest = arquivos.map Ev.ingest)
  ∧ (∃ a m, mainTrace cfg arquivos =
        a ++ [Ev.log (sweepDoneMsg arquivos.length)] ++ m ++
        [Ev.watchScheduled cfg.pasta_xml, Ev.watchStarted] ++
        [Ev.log "Monitoramento ativo! Pressione Ctrl+C para parar."]
      ∧ (∀ e ∈ m, isLogEv e = true)) := by
  intro cfg arquivos
  refine ⟨?_, ?_, ?_⟩
  · simp [mainTrace, sweepTrace, List.filter_append, sweep_filter_ingest, isIngest]
  · refine ⟨[Ev.log "Iniciando processador de NFe...",
       .log "Monitorando pasta: ...", .log "="] ++
       ([Ev.log "Processando arquivos XML existentes..."] ++
        (arquivos.flatMap fun f =>
          [Ev.log ("Processando arquivo existente: " ++ relPath cfg.pasta_xml f),
           Ev.ingest f]) ++
        [Ev.log (sweepDoneMsg arquivos.length)]) ++ [Ev.log "="],
       [Ev.log "Monitoramento ativo! Pressione Ctrl+C para parar."], ?_, ?_, ?_⟩
    · simp [mainTrace, sweepTrace]
    · intro e he; simp at he; simp [he, isIngest]
    · simp [List.filter_append, sweep_filter_ingest, isIngest]
  · refine ⟨[Ev.log "Iniciando processador de NFe...",
       .log "Monitorando pasta: ...", .log "="] ++
       [Ev.log "Processando arquivos XML existentes..."] ++
       (arquivos.flatMap fun f =>
          [Ev.log ("Processando arquivo existente: " ++ relPath cfg.pasta_xml f),
           Ev.ingest f]),
       [Ev.log "="], ?_, ?_⟩
    · simp [mainTrace, sweepTrace]
    · intro e he; simp at he; simp [he, isLogEv]

/-- C9: the flat (non-recursive) backlog sweep uses the glob pattern
`'*xml'` — missing the dot — so it enumerates the file `"dataxml"`, which
does not end in `'.xml'`, contradicting the claimed "exactly the files
whose name ends with '.xml'"; the recursive branch (`'*.xml'`) does filter
on the real extension.  Evaluation of the embedded enumeration at the
failing input: -/
theorem c9_padrao_plano_sem_ponto :
    sweepMatchFlat "dataxml" = true
  ∧ terminaCom "dataxml" ".xml" = false
  ∧ listagemVarredura false ["dataxml", "a.xml"] [] = ["dataxml", "a.xml"]
  ∧ listagemVarredura true [] ["dataxml", "a.xml"] = ["a.xml"]
  ∧ sweepMatchRec "dataxml" = false := by
  refine ⟨by decide, by decide, by decide, by decide, by decide⟩

/-- C10: the live-watch creation handler accepts the file extension
case-insensitively (any non-directory path under the watched root whose
suffix lowercases to `.xml` passes all its guards), while both sweep
patterns are case-sensitive: `"DOC.XML"` is skipped by the startup sweep in
either mode but accepted by the live handler. -/
theorem c10_watch_case_insensitivo :
    (∀ (f : String × String) (pastaXml : String),
       pyLower (pySuffix f.2) = ".xml" →
       (f.1 = pastaXml ∨ (pastaXml ++ "/").isPrefixOf f.1 = true) →
       on_created_aceita false pastaXml f true = true)
  ∧ sweepMatchFlat "DOC.XML" = false
  ∧ sweepMatchRec "DOC.XML" = false := by
  refine ⟨?_, by decide, by decide⟩
  intro f px h1 h2
  simp [on_created_aceita, onCreatedMatch, h1, h2]

theorem c10_witness :
    on_created_aceita false "xml" ("xml", "DOC.XML") true = true :=
  c10_watch_case_insensitivo.1 ("xml", "DOC.XML") "xml" (by decide) (Or.inl rfl)

def filesInDir (w : World) (d : String) : List ((String × String) × String) :=
  w.files.filter (fun x => x.1.1 = d)

lemma lookupFile_logI (w : World) (s : String) (p : String × String) :
    lookupFile (logI w s) p = lookupFile w p := rfl

lemma gerarGo_fst (fs : List (String × String)) (p s e : String) :
    ∀ (fuel c : Nat), (gerarGo fs p s e c fuel).1 = p := by
  intro fuel
  induction fuel with
  | zero => intro c; rfl
  | succ fuel ih =>
      intro c
      show (if candidato p s e c ∈ fs then gerarGo fs p s e (c + 1) fuel
            else candidato p s e c).1 = p
      by_cases h : candidato p s e c ∈ fs
      · rw [if_pos h]; exact ih _
      · rw [if_neg h]; rfl

lemma gerar_fst (fs : List (String × String)) (nome pasta : String) :
    (gerar_nome_unico fs nome pasta).1 = pasta := by
  by_cases h : (pasta, nome) ∈ fs
  · simp [gerar_nome_unico, h, gerarGo_fst]
  · simp [gerar_nome_unico, h]

lemma find?_append_none {α : Type} (p : α → Bool) (l₁ l₂ : List α)
    (h : l₁.find? p = none) : (l₁ ++ l₂).find? p = l₂.find? p := by
  induction l₁ with
  | nil => simp
  | cons a rest ih =>
      rw [List.find?_cons] at h
      cases hp : p a with
      | true => rw [hp] at h; exact absurd h (by simp)
      | false =>
          rw [hp] at h
          simp only [List.cons_append, List.find?_cons, hp]
          exact ih h

lemma filter_move_dir (files : List ((String × String) × String))
    (file dest : String × String) (c : String) (d : String)
    (h1 : file.1 ≠ d) (h2 : dest.1 ≠ d) :
    ((files.filter (fun x => x.1 ≠ file)) ++ [(dest, c)]).filter (fun x => x.1.1 = d) =
    files.filter (fun x => x.1.1 = d) := by
  rw [List.filter_append, List.filter_filter]
  have hsing : List.filter (fun x => x.1.1 = d) [(dest, c)] = [] := by
    simp [List.filter, h2]
  have hpt : ∀ (x : (String × String) × String),
      (decide (x.1.1 = d) && decide (x.1 ≠ file)) = decide (x.1.1 = d) := by
    intro x
    by_cases hx : x.1.1 = d
    · have : x.1 ≠ file := fun hf => h1 (by rw [← hf]; exact hx)
      simp [hx, this]
    · simp [hx]
  simp only [hpt, hsing, List.append_nil]

lemma lookup_move_self (files : List ((String × String) × String))
    (file dest : String × String) (c : String) (hne : dest ≠ file) :
    (((files.filter (fun x => x.1 ≠ file)) ++ [(dest, c)]).find?
      (fun x => x.1 = file)) = none := by
  rw [find?_append_none]
  · simp [List.find?_cons, hne]
  · apply List.find?_eq_none.mpr
    intro x hx
    have := (List.mem_filter.mp hx).2
    simp at this ⊢
    exact this

lemma lookup_move_dest (files : List ((String × String) × String))
    (file dest : String × String) (c : String)
    (hfresh : dest ∉ files.map (·.1)) :
    (((files.filter (fun x => x.1 ≠ file)) ++ [(dest, c)]).find?
      (fun x => x.1 = dest)) = some (dest, c) := by
  rw [find?_append_none]
  · simp [List.find?_cons]
  · apply List.find?_eq_none.mpr
    intro x hx
    have hmem := (List.mem_filter.mp hx).1
    intro hxd
    simp at hxd
    exact hfresh (List.mem_map.mpr ⟨x, hmem, hxd⟩)

lemma lookupFile_mem_keys (w : World) (p : String × String) (c : String)
    (h : lookupFile w p = some c) : p ∈ fsKeys w := by
  unfold lookupFile at h
  cases hf : w.files.find? (fun e => e.1 = p) with
  | none => rw [hf] at h; exact absurd h (by simp)
  | some x =>
      rw [hf] at h
      have hmem := List.mem_of_find?_eq_some hf
      have hp := List.find?_some hf
      simp at hp
      exact List.mem_map.mpr ⟨x, hmem, hp⟩

/-- When the read/parse/extract stage fails, the guarded body stops with
that exception and the world has only gained log lines. -/
lemma processar_core_pre_falha (cfg : Cfg) (env : Env) (w : World)
    (file : String × String) (e : String) (h : preStore env w file = .error e) :
    ∃ lg, processar_core cfg env w file = ({ w with log := w.log ++ lg }, some e) := by
  unfold preStore at h
  unfold processar_core
  cases hl : lookupFile w file with
  | none =>
      rw [hl] at h
      have he : e = "FileNotFoundError" := (Except.error.inj h).symm
      have hl1 : lookupFile (logI w ("Processando arquivo: " ++ relPath cfg.pasta_xml file)) file = none := by
        rw [lookupFile_logI]; exact hl
      simp only [hl1, he]
      exact ⟨[.info ("Processando arquivo: " ++ relPath cfg.pasta_xml file)], rfl⟩
  | some content =>
      rw [hl] at h
      have hl1 : lookupFile (logI w ("Processando arquivo: " ++ relPath cfg.pasta_xml file)) file = some content := by
        rw [lookupFile_logI]; exact hl
      simp only [hl1]
      cases hp : env.parse content with
      | error e' =>
          simp only [hp] at h
          have he : e' = e := Except.error.inj h
          simp only [he]
          exact ⟨[.info ("Processando arquivo: " ++ relPath cfg.pasta_xml file)], rfl⟩
      | ok xmlDict =>
          simp only [hp] at h
          cases hx : extrair_dados_nfe xmlDict with
          | error e' =>
              rw [hx] at h
              have he : e' = e := Except.error.inj h
              simp only [hx, he]
              exact ⟨[.info ("Processando arquivo: " ++ relPath cfg.pasta_xml file),
                      .error ("Erro ao extrair dados da NFe: " ++ e)], by simp [logI, logE]⟩
          | ok pr =>
              rw [hx] at h
              exact absurd h (by simp)

/-- When the store write fails (the read/parse/extract stage having
succeeded), the guarded body stops with that exception, the transaction is
rolled back, and the world has only gained log lines. -/
lemma processar_core_salvar_falha (cfg : Cfg) (env : Env) (w : World)
    (file : String × String) (content : String) (xmlDict : XVal)
    (cab : Cabecalho) (itens : List Item) (e : String)
    (hl : lookupFile w file = some content)
    (hp : env.parse content = .ok xmlDict)
    (hx : extrair_dados_nfe xmlDict = .ok (cab, itens))
    (hs : salvarExc env.dbFail w.db cab itens file.2 (relPath cfg.pasta_xml file) =
      .error e) :
    processar_core cfg env w file =
      ({ files := w.files, db := w.db,
         log := w.log ++ [.info ("Processando arquivo: " ++ relPath cfg.pasta_xml file),
                          .error ("Erro ao salvar no banco de dados: " ++ e)] },
       some e) := by
  have hl3 : ∀ (d : DB) (lgx : List LogEntry),
      lookupFile ({ files := w.files, db := d, log := lgx } : World) file =
        some content := fun _ _ => hl
  simp only [processar_core, logI, logE, hl3, hp, hx, hs]
  simp

/-- Combined failure lemma: any failure of the read/parse/extract/persist
stage stops the guarded body with that exception, leaving files and store
untouched and only extending the log. -/
lemma processar_core_pre_move_falha (cfg : Cfg) (env : Env) (w : World)
    (file : String × String) (e : String) (h : preMove cfg env w file = .error e) :
    ∃ lg, processar_core cfg env w file = ({ w with log := w.log ++ lg }, some e) := by
  unfold preMove at h
  cases hps : preStore env w file with
  | error e' =>
      simp only [hps] at h
      have he : e' = e := Except.error.inj h
      subst he
      exact processar_core_pre_falha cfg env w file e' hps
  | ok pr =>
      obtain ⟨cab, itens⟩ := pr
      simp only [hps] at h
      unfold preStore at hps
      cases hl : lookupFile w file with
      | none => simp only [hl] at hps; exact absurd hps (by simp)
      | some content =>
          simp only [hl] at hps
          cases hp : env.parse content with
          | error e2 => simp only [hp] at hps; exact absurd hps (by simp)
          | ok xmlDict =>
              simp only [hp] at hps
              exact ⟨[.info ("Processando arquivo: " ++ relPath cfg.pasta_xml file),
                      .error ("Erro ao salvar no banco de dados: " ++ e)],
                processar_core_salvar_falha cfg env w file content xmlDict cab itens e
                  hl hp hps h⟩

def destinoErro (cfg : Cfg) (w : World) (file : String × String) : String × String :=
  gerar_nome_unico (fsKeys w) file.2 cfg.pasta_erros

/-- C5: if reading, parsing, extraction or persistence fails (e.g. malformed
markup, or a database error — any failure of the stages up to and including
the store write), `processar_xml` leaves the store untouched (a failing
write raises before `conn.commit()`, so nothing is written) and places
nothing in the processed area; it logs the error with the file's relative
path; with a working error-area move, the file is relocated to the
collision-free destination in the error area and is no longer at its
original location; if the error-area move itself fails, the failure is only
logged, the files are left exactly where they were — and `processar_xml`
still returns a world (it never re-raises). -/
theorem c5_falha_roteia_para_erros :
    ∀ (cfg : Cfg) (env : Env) (w : World) (file : String × String) (e : String),
    preMove cfg env w file = .error e →
    cfg.pasta_erros ≠ cfg.pasta_processados →
    file.1 ≠ cfg.pasta_processados →
    (processar_xml cfg env w file).db = w.db
  ∧ filesInDir (processar_xml cfg env w file) cfg.pasta_processados =
      filesInDir w cfg.pasta_processados
  ∧ LogEntry.error ("Erro ao processar " ++ relPath cfg.pasta_xml file ++ ": " ++ e)
      ∈ (processar_xml cfg env w file).log
  ∧ (env.moveErrFail = true → (processar_xml cfg env w file).files = w.files)
  ∧ (∀ content, env.moveErrFail = false → lookupFile w file = some content →
        lookupFile (processar_xml cfg env w file) file = none
      ∧ lookupFile (processar_xml cfg env w file) (destinoErro cfg w file) = some content) := by
  intro cfg env w file e hpre hdir hfdir
  obtain ⟨lg, hcore⟩ := processar_core_pre_move_falha cfg env w file e hpre
  have hkeys : fsKeys { files := w.files, db := w.db, log := w.log ++ lg } = fsKeys w := rfl
  cases hm : env.moveErrFail with
  | true =>
      have hx : processar_xml cfg env w file =
          logE (logE { files := w.files, db := w.db, log := w.log ++ lg }
              ("Erro ao processar " ++ relPath cfg.pasta_xml file ++ ": " ++ e))
            ("Erro ao mover arquivo para pasta de erros: " ++ "OSError: move failed") := by
        simp only [processar_xml, hcore, moveFile, hm, if_true]
      rw [hx]
      refine ⟨rfl, rfl, ?_, fun _ => rfl, ?_⟩
      · simp [logE]
      · intro content hmf _; exact absurd hmf (by simp)
  | false =>
      cases hl : lookupFile w file with
      | none =>
          have hl2 : lookupFile (logE { files := w.files, db := w.db, log := w.log ++ lg }
              ("Erro ao processar " ++ relPath cfg.pasta_xml file ++ ": " ++ e)) file = none := hl
          have hx : processar_xml cfg env w file =
              logE (logE { files := w.files, db := w.db, log := w.log ++ lg }
                  ("Erro ao processar " ++ relPath cfg.pasta_xml file ++ ": " ++ e))
                ("Erro ao mover arquivo para pasta de erros: " ++ "FileNotFoundError") := by
            simp only [processar_xml, hcore, moveFile, hm, if_false, Bool.false_eq_true, hl2]
          rw [hx]
          refine ⟨rfl, rfl, ?_, fun hmt => absurd hmt (by simp), ?_⟩
          · simp [logE]
          · intro content _ hlc; exact absurd hlc (by simp)
      | some content =>
          have hl3 : lookupFile ({ files := w.files, db := w.db, log := w.log ++ lg ++ [LogEntry.error ("Erro ao processar " ++ relPath cfg.pasta_xml file ++ ": " ++ e)] } : World) file = some content := hl
          have hkeys3 : fsKeys ({ files := w.files, db := w.db, log := w.log ++ lg ++ [LogEntry.error ("Erro ao processar " ++ relPath cfg.pasta_xml file ++ ": " ++ e)] } : World) = fsKeys w := rfl
          have hx : processar_xml cfg env w file =
              logI { files := w.files.filter (fun x => x.1 ≠ file) ++
                       [(destinoErro cfg w file, content)],
                     db := w.db,
                     log := (w.log ++ lg) ++
                       [.error ("Erro ao processar " ++ relPath cfg.pasta_xml file ++ ": " ++ e)] }
                ("Arquivo movido para pasta de erros: " ++ file.2) := by
            simp only [processar_xml, hcore, moveFile, hm, if_false, Bool.false_eq_true,
              logE, hl3, hkeys3, destinoErro]
          have hfresh : destinoErro cfg w file ∉ fsKeys w :=
            (gerar_nome_unico_spec (fsKeys w) file.2 cfg.pasta_erros).2.1
          have hnef : destinoErro cfg w file ≠ file := by
            intro hcontra
            refine hfresh ?_
            rw [hcontra]
            exact lookupFile_mem_keys w file content hl
          have hdfst : (destinoErro cfg w file).1 = cfg.pasta_erros :=
            gerar_fst (fsKeys w) file.2 cfg.pasta_erros
          rw [hx]
          refine ⟨rfl, ?_, ?_, fun hmt => absurd hmt (by simp), ?_⟩
          · show (w.files.filter (fun x => x.1 ≠ file) ++
                [(destinoErro cfg w file, content)]).filter
                  (fun x => x.1.1 = cfg.pasta_processados) =
              w.files.filter (fun x => x.1.1 = cfg.pasta_processados)
            exact filter_move_dir w.files file (destinoErro cfg w file) content
              cfg.pasta_processados hfdir (by rw [hdfst]; exact hdir)
          · simp [logI]
          · intro c2 _ hlc
            have hc2 : c2 = content := (Option.some.inj hlc).symm
            constructor
            · simp only [hx, lookupFile, logI]
              rw [lookup_move_self w.files file (destinoErro cfg w file) content hnef]
              rfl
            · rw [hc2]
              simp only [hx, lookupFile, logI]
              rw [lookup_move_dest w.files file (destinoErro cfg w file) content hfresh]
              rfl

def cfgW : Cfg := ⟨"xml", "proc", "err"⟩

def envFalhaParse : Env := ⟨fun _ => .error "ExpatError", false, false, false⟩

/-- An environment where the document is fine but the database write fails
(`sqlite3.OperationalError`), exercising the persistence-failure stage. -/
def envFalhaBanco : Env := ⟨fun _ => .ok scenarioTree, true, false, false⟩

def wUmArquivo : World := ⟨[(("xml", "a.xml"), "conteudo")], ⟨[], []⟩, []⟩

theorem c5_witness :
    (processar_xml cfgW envFalhaParse wUmArquivo ("xml", "a.xml")).db = wUmArquivo.db
  ∧ lookupFile (processar_xml cfgW envFalhaParse wUmArquivo ("xml", "a.xml"))
      ("xml", "a.xml") = none
  ∧ lookupFile (processar_xml cfgW envFalhaParse wUmArquivo ("xml", "a.xml"))
      (destinoErro cfgW wUmArquivo ("xml", "a.xml")) = some "conteudo"
  ∧ (processar_xml cfgW envFalhaBanco wUmArquivo ("xml", "a.xml")).db = wUmArquivo.db
  ∧ lookupFile (processar_xml cfgW envFalhaBanco wUmArquivo ("xml", "a.xml"))
      ("xml", "a.xml") = none
  ∧ lookupFile (processar_xml cfgW envFalhaBanco wUmArquivo ("xml", "a.xml"))
      (destinoErro cfgW wUmArquivo ("xml", "a.xml")) = some "conteudo" := by
  have h := c5_falha_roteia_para_erros cfgW envFalhaParse wUmArquivo ("xml", "a.xml")
    "ExpatError" rfl (by decide) (by decide)
  have h5 := h.2.2.2.2 "conteudo" rfl rfl
  have g := c5_falha_roteia_para_erros cfgW envFalhaBanco wUmArquivo ("xml", "a.xml")
    "OperationalError" rfl (by decide) (by decide)
  have g5 := g.2.2.2.2 "conteudo" rfl rfl
  exact ⟨h.1, h5.1, h5.2, g.1, g5.1, g5.2⟩

def envMovesFalham : Env := ⟨fun _ => .ok scenarioTree, false, true, true⟩

def wNota : World := ⟨[(("xml", "nota.xml"), "conteudo")], ⟨[], []⟩, []⟩

/-- C6, counterexample: with a document that parses, extracts and commits but
whose move to the processed area fails (and the error-area fallback also
fails), `processar_xml` ends with the header committed to the store while
the file is still at its original location — a commit without a
corresponding successful move, contradicting the claim. -/
theorem c6_contraexemplo :
    (processar_xml cfgW envMovesFalham wNota ("xml", "nota.xml")).db.cabecalhos.map
        (fun r => r.chave_acesso) = ["35200714200166000187550010000000046550010466"]
  ∧ lookupFile (processar_xml cfgW envMovesFalham wNota ("xml", "nota.xml"))
      ("xml", "nota.xml") = some "conteudo" := by
  exact ⟨by decide, by decide⟩

def destinoProc (cfg : Cfg) (w : World) (file : String × String) : String × String :=
  gerar_nome_unico (fsKeys w) file.2 cfg.pasta_processados

/-- C6 (amended): after a fully successful `processar_xml` run (the guarded
body raises no exception: read, parse, extraction, commit and the
processed-area move all succeed), the file is no longer at its original
location and its content sits at the collision-free destination in the
processed area.  A commit alone does not guarantee this: the commit precedes
the move, so a failing move leaves the commit in place (see the
counterexample). -/
theorem c6_sucesso_move :
    ∀ (cfg : Cfg) (env : Env) (w : World) (file : String × String),
    (processar_core cfg env w file).2 = none →
    lookupFile (processar_xml cfg env w file) file = none
  ∧ ∀ content, lookupFile w file = some content →
      lookupFile (processar_xml cfg env w file) (destinoProc cfg w file) =
        some content := by
  intro cfg env w file hnone
  unfold processar_core at hnone
  cases hl : lookupFile w file with
  | none =>
      have hl1 : lookupFile (logI w ("Processando arquivo: " ++ relPath cfg.pasta_xml file)) file = none := hl
      simp only [hl1] at hnone
      exact absurd hnone (by simp)
  | some content =>
      have hl1 : lookupFile (logI w ("Processando arquivo: " ++ relPath cfg.pasta_xml file)) file = some content := hl
      simp only [hl1] at hnone
      cases hp : env.parse content with
      | error e => simp only [hp] at hnone; exact absurd hnone (by simp)
      | ok xmlDict =>
          simp only [hp] at hnone
          cases hx : extrair_dados_nfe xmlDict with
          | error e => simp only [hx] at hnone; exact absurd hnone (by simp)
          | ok pr =>
              obtain ⟨cab, itens⟩ := pr
              simp only [hx] at hnone
              cases hs : salvarExc env.dbFail
                  (logI w ("Processando arquivo: " ++ relPath cfg.pasta_xml file)).db cab itens
                  file.2 (relPath cfg.pasta_xml file) with
              | error e => simp only [hs] at hnone; exact absurd hnone (by simp)
              | ok db2 =>
                  simp only [hs] at hnone
                  cases hmf : env.moveProcFail with
                  | true =>
                      simp only [hmf, moveFile, if_true] at hnone
                      exact absurd hnone (by simp)
                  | false =>
                      have hl3 : ∀ (d : DB) (lgx : List LogEntry),
                          lookupFile ({ files := w.files, db := d, log := lgx } : World) file =
                            some content := fun _ _ => hl
                      have hkk : ∀ (d : DB) (lgx : List LogEntry),
                          fsKeys ({ files := w.files, db := d, log := lgx } : World) = fsKeys w :=
                        fun _ _ => rfl
                      have hdp : gerar_nome_unico (fsKeys w) file.2 cfg.pasta_processados =
                          destinoProc cfg w file := rfl
                      have hfresh : destinoProc cfg w file ∉ fsKeys w :=
                        (gerar_nome_unico_spec (fsKeys w) file.2 cfg.pasta_processados).2.1
                      have hnef : destinoProc cfg w file ≠ file := by
                        intro hc
                        refine hfresh ?_
                        rw [hc]
                        exact lookupFile_mem_keys w file content hl
                      have hs2 : salvarExc env.dbFail w.db cab itens file.2
                          (relPath cfg.pasta_xml file) = Except.ok db2 := hs
                      constructor
                      · simp only [processar_xml, processar_core, hl3, hp, hx, hs2, hmf,
                          moveFile, if_false, Bool.false_eq_true, logI, hkk, hdp]
                        simp only [lookupFile]
                        rw [lookup_move_self w.files file (destinoProc cfg w file) content hnef]
                        rfl
                      · intro c2 hc2
                        have hcc : c2 = content := (Option.some.inj hc2).symm
                        rw [hcc]
                        simp only [processar_xml, processar_core, hl3, hp, hx, hs2, hmf,
                          moveFile, if_false, Bool.false_eq_true, logI, hkk, hdp]
                        simp only [lookupFile]
                        rw [lookup_move_dest w.files file (destinoProc cfg w file) content hfresh]
                        rfl

def envTudoCerto : Env := ⟨fun _ => .ok scenarioTree, false, false, false⟩

theorem c6_witness :
    lookupFile (processar_xml cfgW envTudoCerto wNota ("xml", "nota.xml"))
      ("xml", "nota.xml") = none
  ∧ lookupFile (processar_xml cfgW envTudoCerto wNota ("xml", "nota.xml"))
      (destinoProc cfgW wNota ("xml", "nota.xml")) = some "conteudo" := by
  have h := c6_sucesso_move cfgW envTudoCerto wNota ("xml", "nota.xml") (by decide)
  exact ⟨h.1, h.2 "conteudo" rfl⟩
